import Mathlib

/-!
Verification development for the paper-relevance evaluator
(`src/llm_evaluator.py`).  The Python source is shallowly embedded:

* `parseResponse` embeds `LLMEvaluator._parse_response` (the regex cascade
  is translated into explicit character scans with the same search and
  backtracking semantics as Python `re.search` / `re.split`);
* `runList` / `evaluateSingleModel` embed the retry loop of
  `LLMEvaluator._evaluate_single_paper`, with the remote call abstracted
  as an oracle `Nat → CallOutcome` (one outcome per attempt) and the
  random jitter abstracted as `Nat → ℚ`;
* `evaluatePapers` embeds `LLMEvaluator.evaluate_papers`, with papers as
  association lists (Python dicts) and the per-paper evaluation outcome
  abstracted as an oracle.

Python floats are modelled as rationals (`ℚ`); every number handled by the
program (parsed scores, thresholds, backoff delays) is a small decimal,
where rational arithmetic agrees with float arithmetic.
-/

/-! ## Character classes (ASCII semantics of Python `re` classes) -/

/-- Python whitespace class matched by the regex class backslash-s
(ASCII range; all strings in this development are ASCII). -/
def isSpaceChar (c : Char) : Bool :=
  c = ' ' || c = '\t' || c = '\n' || c = '\r' || c = '\x0b' || c = '\x0c'

/-- Decimal digit, the regex class backslash-d (ASCII). -/
def isDigitChar (c : Char) : Bool :=
  '0' ≤ c && c ≤ '9'

/-- Word character, the class underlying the regex word boundary. -/
def isWordChar (c : Char) : Bool :=
  ('a' ≤ c && c ≤ 'z') || ('A' ≤ c && c ≤ 'Z') || isDigitChar c || c = '_'

/-- ASCII lower-casing, as used for case-insensitive matching and for
Python `str.lower()`. -/
def lowerChar (c : Char) : Char :=
  if 'A' ≤ c && c ≤ 'Z' then Char.ofNat (c.toNat + 32) else c

/-- Numeric value of a digit character. -/
def digitVal (c : Char) : ℕ := c.toNat - ('0').toNat

/-- Value of a digit string read left to right with accumulator. -/
def digitsToNat : List Char → ℕ → ℕ
  | [], acc => acc
  | c :: cs, acc => digitsToNat cs (acc * 10 + digitVal c)

/-- Value of a fractional digit string (the part after the decimal dot). -/
def fracVal (cs : List Char) : ℚ :=
  (digitsToNat cs 0 : ℚ) / (10 : ℚ) ^ cs.length

/-! ## The number pattern of strategies 1 and 2

The source pattern is: one or more digits, an optional dot, then any
number of digits (all greedy); `float` of the matched text.  A trailing
dot with no fractional digits is allowed, as in Python
(`float "8." = 8.0`). -/

/-- Match the number pattern at the head of the text; `none` when the text
does not start with a digit. -/
def matchNumber (cs : List Char) : Option ℚ :=
  let ds := cs.takeWhile isDigitChar
  let rest := cs.dropWhile isDigitChar
  if ds.isEmpty then none
  else
    match rest with
    | '.' :: rest2 =>
        some ((digitsToNat ds 0 : ℚ) + fracVal (rest2.takeWhile isDigitChar))
    | _ => some ((digitsToNat ds 0 : ℚ))

/-- Case-insensitive literal-prefix match: drop the label (given in
lowercase) from the head of the text, or fail. -/
def dropCI : List Char → List Char → Option (List Char)
  | [], cs => some cs
  | _ :: _, [] => none
  | p :: ps, c :: cs => if lowerChar c = p then dropCI ps cs else none

/-- Label of parsing strategy 1 (`SCORE:` with the colon attached). -/
def scoreColon : List Char := "score:".data

/-- First label alternative of parsing strategy 2. -/
def scoreWord : List Char := "score".data

/-- Second label alternative of parsing strategy 2. -/
def ratingWord : List Char := "rating".data

/-- Label of the reason pattern. -/
def reasonColon : List Char := "reason:".data

/-! ## Score strategy 1: `SCORE:` label, optional whitespace, a number -/

/-- Try strategy 1 at the current position. -/
def scoreLabelAt (cs : List Char) : Option ℚ :=
  match dropCI scoreColon cs with
  | none => none
  | some rest => matchNumber (rest.dropWhile isSpaceChar)

/-- Leftmost match of strategy 1 (the `re.search` scan). -/
def searchScoreLabel : List Char → Option ℚ
  | [] => none
  | c :: cs =>
    match scoreLabelAt (c :: cs) with
    | some q => some q
    | none => searchScoreLabel cs

/-! ## Score strategy 2: `score` or `rating`, then one or more
whitespace-or-colon characters, then a number -/

/-- Separator class of strategy 2 (whitespace or colon). -/
def isSepChar (c : Char) : Bool := isSpaceChar c || c = ':'

/-- Try strategy 2 at the current position.  The separator class is
matched greedily; backtracking cannot help because a separator character
is never a digit, so at least one separator and then a digit after the
maximal separator run is required, exactly as in the source pattern. -/
def altLabelAt (cs : List Char) : Option ℚ :=
  match
    (match dropCI scoreWord cs with
     | some r => some r
     | none => dropCI ratingWord cs) with
  | none => none
  | some rest =>
      if (rest.takeWhile isSepChar).isEmpty then none
      else matchNumber (rest.dropWhile isSepChar)

/-- Leftmost match of strategy 2. -/
def searchAltLabel : List Char → Option ℚ
  | [] => none
  | c :: cs =>
    match altLabelAt (c :: cs) with
    | some q => some q
    | none => searchAltLabel cs

/-! ## Score strategy 3: first standalone number token

Source pattern: word boundary, then a single digit or the two characters
`10` (ordered alternation), then optionally a dot with one or more digits,
then a word boundary.  The captured group is only the integer part. -/

/-- Word boundary immediately after a digit run: end of text or a
non-word character. -/
def bdryAfter : List Char → Bool
  | [] => true
  | c :: _ => !isWordChar c

/-- The optional fractional part of strategy 3: a dot, one or more digits
(greedily), then a word boundary.  Giving back digits cannot restore a
boundary between two digits, so only the maximal digit run can close the
match. -/
def fracThenBdry : List Char → Bool
  | '.' :: rest =>
      !(rest.takeWhile isDigitChar).isEmpty && bdryAfter (rest.dropWhile isDigitChar)
  | _ => false

/-- Try strategy 3 at the current position (word boundary before the
position already checked by the caller).  The single-digit alternative is
tried before the `10` alternative, as in the source's ordered
alternation; each alternative first tries to take a fractional part and
falls back to the empty option. -/
def numTokenAt : List Char → Option ℚ
  | [] => none
  | c :: rest =>
    if isDigitChar c then
      if fracThenBdry rest || bdryAfter rest then some ((digitVal c : ℚ))
      else if c = '1' then
        match rest with
        | c2 :: rest2 =>
            if c2 = '0' && (fracThenBdry rest2 || bdryAfter rest2) then some 10
            else none
        | [] => none
      else none
    else none

/-- Leftmost match of strategy 3, carrying the previous character to
decide the leading word boundary. -/
def searchNumToken (prev : Option Char) : List Char → Option ℚ
  | [] => none
  | c :: cs =>
    let okBefore : Bool :=
      match prev with
      | none => true
      | some p => !isWordChar p
    match (if okBefore then numTokenAt (c :: cs) else none) with
    | some q => some q
    | none => searchNumToken (some c) cs

/-- The score half of `_parse_response`: strategy 1, else strategy 2,
else strategy 3 with the in-range check from the source (`0 <= score <=
10`, vacuous for this pattern but kept), else the default `0.0`. -/
def parseScore (cs : List Char) : ℚ :=
  match searchScoreLabel cs with
  | some q => q
  | none =>
    match searchAltLabel cs with
    | some q => q
    | none =>
      match searchNumToken none cs with
      | some q => if 0 ≤ q ∧ q ≤ 10 then q else 0
      | none => 0

/-! ## Reason extraction

Source pattern: `REASON:` (case-insensitive), greedy whitespace, then a
lazy non-empty capture, closed by a newline or the end of text (DOTALL,
so the lazy dot may itself consume a newline when the remainder is pure
whitespace).  The resolved backtracking semantics: the pattern matches
iff anything at all follows the label; the greedy whitespace run is
shortened just enough to leave one character for the capture; the capture
ends at the first newline strictly after its first character, or at the
end of text. -/

/-- Number of leading whitespace characters. -/
def spaceLen (cs : List Char) : ℕ := (cs.takeWhile isSpaceChar).length

/-- The captured group: its first character, then everything up to the
next newline. -/
def groupFrom : List Char → List Char
  | [] => []
  | c :: rest => c :: rest.takeWhile (fun d => !(d = '\n'))

/-- Try the reason pattern at the current position. -/
def reasonAt (cs : List Char) : Option (List Char) :=
  match dropCI reasonColon cs with
  | none => none
  | some rest =>
    if rest.isEmpty then none
    else some (groupFrom (rest.drop (min (spaceLen rest) (rest.length - 1))))

/-- Leftmost match of the reason pattern. -/
def searchReason : List Char → Option (List Char)
  | [] => none
  | c :: cs =>
    match reasonAt (c :: cs) with
    | some g => some g
    | none => searchReason cs

/-- Python `str.strip()`: drop whitespace from both ends. -/
def stripChars (cs : List Char) : List Char :=
  ((cs.dropWhile isSpaceChar).reverse.dropWhile isSpaceChar).reverse

/-- Sentence-ending punctuation of the fallback sentence split. -/
def isPunctChar (c : Char) : Bool := c = '.' || c = '!' || c = '?'

/-- Prepend a character to the first piece of a split result. -/
def consHead (c : Char) : List (List Char) → List (List Char)
  | [] => [[c]]
  | p :: ps => (c :: p) :: ps

/-- Python `re.split` on the pattern: one of `.!?` followed by one or
more whitespace characters (the separator is consumed).  Fuel-driven so
the recursion is structural; `splitSent` supplies fuel equal to the text
length, which every step strictly decreases below. -/
def splitSentFuel : ℕ → List Char → List (List Char)
  | 0, cs => [cs]
  | _ + 1, [] => [[]]
  | fuel + 1, c :: cs =>
    if isPunctChar c && !(cs.takeWhile isSpaceChar).isEmpty then
      [] :: splitSentFuel fuel (cs.dropWhile isSpaceChar)
    else consHead c (splitSentFuel fuel cs)

/-- Sentence split of the reason fallback. -/
def splitSent (cs : List Char) : List (List Char) :=
  splitSentFuel cs.length cs

/-- The reason half of `_parse_response`: the `REASON:` capture stripped,
else the second sentence (when the split yields more than one piece)
truncated to 100 characters, else the first 100 characters of the raw
text.  The source initialises `reason` to the string `"No reason
provided"`, but both branches of the fallback assign unconditionally, so
that initial value never survives to the return. -/
def parseReason (cs : List Char) : List Char :=
  match searchReason cs with
  | some g => stripChars g
  | none =>
    let ss := splitSent cs
    if 1 < ss.length then (ss.getD 1 []).take 100 else cs.take 100

/-- `LLMEvaluator._parse_response`: the returned `(score, reason)` pair.
The source's debug print when the score is `0.0` is an output-only side
channel and does not affect the returned pair. -/
def parseResponse (content : String) : ℚ × String :=
  (parseScore content.data, String.mk (parseReason content.data))

/-- The dead initial value of `reason` in the source. -/
def noReasonStr : String := "No reason provided"

/-- Response text of the parse example. -/
def exC5 : String := "SCORE: 8.5\nREASON: Directly extends prior work."

/-- Lower-case variant of the parse example (case-insensitive labels). -/
def exC5low : String := "score: 8.5\nreason: Directly extends prior work."

/-- Response text with no labels; the fallback finds the standalone 7. -/
def exC6 : String := "This paper discusses 7 relevant points about transformers."

/-- Response text whose only in-range standalone token has leading
zeros. -/
def exC6z : String := "007 and 5"

/-- Label-free text with three sentences, for the reason fallback. -/
def exC7 : String := "Alpha beta. Gamma delta. Epsilon."

/-- Out-of-range labeled score. -/
def exC8 : String := "SCORE: 15"

/-- Label-free text whose first in-range number is a decimal. -/
def exC10 : String := "The relevance is 9.7 overall."

/-! ## The retry loop of `_evaluate_single_paper`

The remote completion call either returns a response text or raises; this
is embedded as `CallOutcome`.  The loop classifies an exception as
throttling by substring search: the lower-cased message containing
`rate_limit`, or the message containing `429`.  The loop makes up to 5
attempts; a throttled attempt that is not the last sleeps
`base_delay * 2 ^ attempt + jitter` (base delay 1.0) and continues; a
throttled last attempt returns the rate-limit sentinel; any other
exception returns the evaluation-error sentinel at once.  All paths
return a result dictionary — nothing is re-raised to the caller.  The
attempt sequence `range(5)` is embedded as the list `[0, 1, 2, 3, 4]`;
the source's `attempt < max_retries - 1` test is exactly "this is not the
last attempt of the list". -/

/-- Outcome of one remote completion call: a response text, or the text
of the raised exception. -/
inductive CallOutcome where
  | ok : String → CallOutcome
  | err : String → CallOutcome
deriving DecidableEq

/-- Literal-prefix test on character lists. -/
def startsWithL : List Char → List Char → Bool
  | [], _ => true
  | _ :: _, [] => false
  | p :: ps, c :: cs => p = c && startsWithL ps cs

/-- Substring test (Python `in` on strings), over character lists. -/
def containsSub (pat : List Char) : List Char → Bool
  | [] => startsWithL pat []
  | c :: cs => startsWithL pat (c :: cs) || containsSub pat cs

/-- The throttling test of the source: `"rate_limit" in str(e).lower() or
"429" in str(e)`. -/
def isRateLimitMsg (m : String) : Bool :=
  containsSub ("rate_limit".data) (m.data.map lowerChar) || containsSub ("429".data) m.data

/-- Whether an outcome is a throttling failure. -/
def isThrottle : CallOutcome → Bool
  | CallOutcome.ok _ => false
  | CallOutcome.err m => isRateLimitMsg m

/-- The rate-limit sentinel reason. -/
def rateLimitReason : String := "Rate limit exceeded"

/-- The generic-failure sentinel reason. -/
def evalErrorReason : String := "Evaluation error"

/-- The post-loop sentinel reason of the source (line after the loop;
unreachable, since every attempt returns or continues and the last
attempt always returns). -/
def maxRetriesReason : String := "Max retries exceeded"

/-- Observable trace of one `_evaluate_single_paper` task: the returned
result dictionary (`score`, `reason`), the number of remote calls issued,
and the backoff delays slept between calls, in order. -/
structure SingleRun where
  score : ℚ
  reason : String
  calls : ℕ
  delays : List ℚ
deriving DecidableEq

/-- The factor `2 ** attempt` of the exponential backoff (structural, so
concrete runs evaluate inside the kernel). -/
def twoPow : ℕ → ℚ
  | 0 => 1
  | n + 1 => 2 * twoPow n

/-- The retry loop, iterating over the remaining attempt indices.  `call
k` is the outcome of the remote call on attempt `k`; `jitter k` is the
random `uniform(0, 1)` sample added to the delay slept after attempt
`k`. -/
def runList (call : ℕ → CallOutcome) (jitter : ℕ → ℚ) : List ℕ → SingleRun
  | [] => ⟨0, maxRetriesReason, 0, []⟩
  | attempt :: rest =>
    match call attempt with
    | CallOutcome.ok content =>
        ⟨(parseResponse content).1, (parseResponse content).2, 1, []⟩
    | CallOutcome.err m =>
      if isRateLimitMsg m then
        if rest.isEmpty then ⟨0, rateLimitReason, 1, []⟩
        else
          let r := runList call jitter rest
          ⟨r.score, r.reason, r.calls + 1, (twoPow attempt + jitter attempt) :: r.delays⟩
      else ⟨0, evalErrorReason, 1, []⟩

/-- `_evaluate_single_paper`'s control flow: the loop over
`range(max_retries)` with `max_retries = 5`. -/
def evaluateSingleModel (call : ℕ → CallOutcome) (jitter : ℕ → ℚ) : SingleRun :=
  runList call jitter [0, 1, 2, 3, 4]

/-- A remote endpoint that throttles every attempt. -/
def callAllThrottle : ℕ → CallOutcome := fun _ => CallOutcome.err ("429")

/-- A remote endpoint that throttles the first four attempts and answers
on the fifth. -/
def callFourThrottle : ℕ → CallOutcome :=
  fun k => if k < 4 then CallOutcome.err ("429") else CallOutcome.ok exC5

/-- A remote endpoint whose first call fails with a non-throttling
error. -/
def callBoom : ℕ → CallOutcome := fun _ => CallOutcome.err ("connection reset")

/-- Zero jitter. -/
def zeroJitter : ℕ → ℚ := fun _ => 0

/-- Constant jitter of one half, inside `[0, 1)`. -/
def halfJitter : ℕ → ℚ := fun _ => 1 / 2

/-! ## The batch engine `evaluate_papers`

Papers are Python dicts; they are embedded as association lists from
string keys to values (`Val`), with Python's in-place `paper[k] = v`
embedded as `dictSet` (replace the binding if the key exists, append
otherwise).  The per-paper evaluation outcome (`_evaluate_single_paper`'s
returned dictionary) is abstracted as a total oracle `ev`.  The engine
collects completed tasks in an arbitrary completion order; the theorems
below quantify over the input list, so every completion order is an
instance.  `evaluatePapers` returns the pair of (the list the method
returns, the post-call state of the caller's papers), making the
in-place augmentation of retained papers observable. -/

/-- A dictionary value: the fields used by the engine are strings and
numbers. -/
inductive Val where
  | str : String → Val
  | num : ℚ → Val
deriving DecidableEq

/-- A paper dictionary. -/
abbrev Dict := List (String × Val)

/-- Python dict lookup. -/
def dictGet : Dict → String → Option Val
  | [], _ => none
  | e :: es, key => if e.1 = key then some e.2 else dictGet es key

/-- Python in-place dict assignment. -/
def dictSet : Dict → String → Val → Dict
  | [], key, v => [(key, v)]
  | e :: es, key, v => if e.1 = key then (key, v) :: es else e :: dictSet es key v

/-- The result dictionary of one evaluation task. -/
structure EvalResult where
  score : ℚ
  reason : String

/-- Key of the attached score. -/
def scoreKey : String := "relevance_score"

/-- Key of the attached reason. -/
def reasonKey : String := "relevance_reason"

/-- Key of a paper's title. -/
def titleKey : String := "title"

/-- Key of a paper's abstract. -/
def abstractKey : String := "abstract"

/-- Sort key of the final sort: `x['relevance_score']` (all sorted papers
carry the key; the default covers the partiality in the source). -/
def relScore (p : Dict) : ℚ :=
  match dictGet p scoreKey with
  | some (Val.num q) => q
  | _ => 0

/-- The descending-score order of the final sort. -/
def byScore (a b : Dict) : Prop := relScore b ≤ relScore a

instance : DecidableRel byScore :=
  fun a b => inferInstanceAs (Decidable (relScore b ≤ relScore a))

instance : IsTotal Dict byScore :=
  ⟨fun a b => le_total (relScore b) (relScore a)⟩

instance : IsTrans Dict byScore :=
  ⟨fun _ _ _ h1 h2 => le_trans h2 h1⟩

/-- In-place augmentation of a retained paper: the two assignments
`paper['relevance_score'] = result['score']` and
`paper['relevance_reason'] = result['reason']`. -/
def augment (ev : Dict → EvalResult) (p : Dict) : Dict :=
  dictSet (dictSet p scoreKey (Val.num (ev p).score)) reasonKey (Val.str (ev p).reason)

/-- What one completed task does to the caller's paper: augmented in
place when retained, untouched otherwise. -/
def attachResult (ev : Dict → EvalResult) (thr : ℚ) (p : Dict) : Dict :=
  if thr ≤ (ev p).score then augment ev p else p

/-- `LLMEvaluator.evaluate_papers`: first component the returned list
(retained papers sorted by score, highest first, with Python's stable
sort embedded as insertion sort), second component the post-call state of
the caller's input list. -/
def evaluatePapers (papers : List Dict) (ev : Dict → EvalResult) (thr : ℚ) :
    List Dict × List Dict :=
  (List.insertionSort byScore
      ((papers.filter (fun p => decide (thr ≤ (ev p).score))).map (augment ev)),
   papers.map (attachResult ev thr))

/-- A concrete paper dictionary owned by the caller. -/
def paperT : Dict := [(titleKey, Val.str ("A paper")), (abstractKey, Val.str ("An abstract"))]

/-- An evaluation oracle scoring every paper 9. -/
def evHigh : Dict → EvalResult := fun _ => ⟨9, "Looks relevant"⟩

/-! ## Helper lemmas -/

/-- Looking up the key just set yields the new value. -/
theorem dictGet_dictSet_self (d : Dict) (k : String) (v : Val) :
    dictGet (dictSet d k v) k = some v := by
  induction d with
  | nil => simp [dictGet, dictSet]
  | cons e es ih =>
    by_cases h : e.1 = k
    · simp [dictSet, h, dictGet]
    · simp [dictSet, h, dictGet, ih]

/-- Setting one key leaves every other key's binding unchanged. -/
theorem dictGet_dictSet_ne (d : Dict) (k k2 : String) (v : Val) (h : k2 ≠ k) :
    dictGet (dictSet d k v) k2 = dictGet d k2 := by
  induction d with
  | nil => simp [dictGet, dictSet, Ne.symm h]
  | cons e es ih =>
    by_cases he : e.1 = k
    · simp [dictSet, he, dictGet, Ne.symm h, he ▸ Ne.symm h]
    · simp [dictSet, he, dictGet, ih]

/-- Evaluation of the backoff factor at attempt 0. -/
theorem twoPow_zero : twoPow 0 = 1 := rfl

/-- Evaluation of the backoff factor at attempt 1. -/
theorem twoPow_one : twoPow 1 = 2 := by norm_num [twoPow]

/-- Evaluation of the backoff factor at attempt 2. -/
theorem twoPow_two : twoPow 2 = 4 := by norm_num [twoPow]

/-- Evaluation of the backoff factor at attempt 3. -/
theorem twoPow_three : twoPow 3 = 8 := by norm_num [twoPow]

/-- A throttling outcome is an error whose message passes the rate-limit
test. -/
theorem throttle_err (c : CallOutcome) (h : isThrottle c = true) :
    ∃ m, c = CallOutcome.err m ∧ isRateLimitMsg m = true := by
  cases c with
  | ok s => simp [isThrottle] at h
  | err m => exact ⟨m, rfl, by simpa [isThrottle] using h⟩

/-- Full unfolding of the retry loop when every attempt is throttled. -/
theorem runAll_throttle (call : ℕ → CallOutcome) (jitter : ℕ → ℚ)
    (h : ∀ k, k < 5 → isThrottle (call k) = true) :
    evaluateSingleModel call jitter =
      ⟨0, rateLimitReason, 5, [1 + jitter 0, 2 + jitter 1, 4 + jitter 2, 8 + jitter 3]⟩ := by
  obtain ⟨m0, hc0, hm0⟩ := throttle_err _ (h 0 (by norm_num))
  obtain ⟨m1, hc1, hm1⟩ := throttle_err _ (h 1 (by norm_num))
  obtain ⟨m2, hc2, hm2⟩ := throttle_err _ (h 2 (by norm_num))
  obtain ⟨m3, hc3, hm3⟩ := throttle_err _ (h 3 (by norm_num))
  obtain ⟨m4, hc4, hm4⟩ := throttle_err _ (h 4 (by norm_num))
  norm_num [evaluateSingleModel, runList, hc0, hm0, hc1, hm1, hc2, hm2, hc3, hm3, hc4, hm4,
    twoPow_zero, twoPow_one, twoPow_two, twoPow_three]

/-- The throttled attempts of `callFourThrottle`. -/
theorem callFour_throttled (k : ℕ) (hk : k < 4) :
    isThrottle (callFourThrottle k) = true := by
  unfold callFourThrottle
  rw [if_pos hk]
  decide

/-! ## Claim theorems -/

/-- Claim C2 (amended): on throttling the task retries up to 5 attempts
total with exponential backoff, base delay 1.0 doubled at each retried
attempt, plus a jitter in `[0, 1)` added to each delay; the delays slept
are 1, 2, 4, 8 (no delay follows the final attempt, so a delay of 16
never occurs).  Throttled on the first 4 attempts and successful on the
5th, the task yields the parsed result of the 5th response after exactly
5 remote calls, with strictly increasing delays between them. -/
theorem spec_c2_retry_backoff (call : ℕ → CallOutcome) (jitter : ℕ → ℚ) (content : String)
    (hth : ∀ k, k < 4 → isThrottle (call k) = true)
    (hok : call 4 = CallOutcome.ok content)
    (hj : ∀ k, 0 ≤ jitter k ∧ jitter k < 1) :
    evaluateSingleModel call jitter =
      ⟨(parseResponse content).1, (parseResponse content).2, 5,
        [1 + jitter 0, 2 + jitter 1, 4 + jitter 2, 8 + jitter 3]⟩
    ∧ List.Chain' (fun a b : ℚ => a < b) (evaluateSingleModel call jitter).delays := by
  obtain ⟨m0, hc0, hm0⟩ := throttle_err _ (hth 0 (by norm_num))
  obtain ⟨m1, hc1, hm1⟩ := throttle_err _ (hth 1 (by norm_num))
  obtain ⟨m2, hc2, hm2⟩ := throttle_err _ (hth 2 (by norm_num))
  obtain ⟨m3, hc3, hm3⟩ := throttle_err _ (hth 3 (by norm_num))
  have hmain : evaluateSingleModel call jitter =
      ⟨(parseResponse content).1, (parseResponse content).2, 5,
        [1 + jitter 0, 2 + jitter 1, 4 + jitter 2, 8 + jitter 3]⟩ := by
    norm_num [evaluateSingleModel, runList, hc0, hm0, hc1, hm1, hc2, hm2, hc3, hm3, hok,
      twoPow_zero, twoPow_one, twoPow_two, twoPow_three]
  refine ⟨hmain, ?_⟩
  rw [hmain]
  obtain ⟨h0a, h0b⟩ := hj 0
  obtain ⟨h1a, h1b⟩ := hj 1
  obtain ⟨h2a, h2b⟩ := hj 2
  obtain ⟨h3a, h3b⟩ := hj 3
  refine List.Chain'.cons (by linarith) (List.Chain'.cons (by linarith)
    (List.Chain'.cons (by linarith) (List.chain'_singleton _)))

/-- Claim C2, witness: four throttled attempts then a successful parse of
the example response, with jitter one half. -/
theorem spec_c2_witness :
    evaluateSingleModel callFourThrottle halfJitter =
      ⟨(parseResponse exC5).1, (parseResponse exC5).2, 5,
        [1 + halfJitter 0, 2 + halfJitter 1, 4 + halfJitter 2, 8 + halfJitter 3]⟩
    ∧ List.Chain' (fun a b : ℚ => a < b) (evaluateSingleModel callFourThrottle halfJitter).delays :=
  spec_c2_retry_backoff callFourThrottle halfJitter exC5
    (fun k hk => callFour_throttled k hk)
    (by decide)
    (fun _ => by norm_num [halfJitter])

/-- Claim C2, counterexample to the claim as stated: with every attempt
throttled (and zero jitter, to exhibit the base delays), the loop sleeps
exactly the delays 1, 2, 4, 8 — the delay 16 announced by the claim's
schedule never occurs, because no delay follows the 5th attempt. -/
theorem spec_c2_cex :
    (evaluateSingleModel callAllThrottle zeroJitter).calls = 5
    ∧ (evaluateSingleModel callAllThrottle zeroJitter).delays = [1, 2, 4, 8]
    ∧ ¬ (16 : ℚ) ∈ (evaluateSingleModel callAllThrottle zeroJitter).delays := by
  have h := runAll_throttle callAllThrottle zeroJitter (fun k _ => rfl)
  rw [h]
  norm_num [zeroJitter, rateLimitReason]

/-- Claim C3: throttled on all 5 attempts, the task resolves to the
sentinel (score 0, reason "Rate limit exceeded") after exactly 5 calls;
the final conjunct expresses that no 6th call is issued — the run is
unchanged under any modification of the oracle beyond attempt 4.  The
model returns this sentinel as an ordinary value, matching the source,
which returns the sentinel dictionary instead of raising. -/
theorem spec_c3_exhausted (call : ℕ → CallOutcome) (jitter : ℕ → ℚ)
    (h : ∀ k, k < 5 → isThrottle (call k) = true) :
    (evaluateSingleModel call jitter).score = 0
    ∧ (evaluateSingleModel call jitter).reason = rateLimitReason
    ∧ (evaluateSingleModel call jitter).calls = 5
    ∧ ∀ call2 : ℕ → CallOutcome, (∀ k, k < 5 → call2 k = call k) →
        evaluateSingleModel call2 jitter = evaluateSingleModel call jitter := by
  have hmain := runAll_throttle call jitter h
  refine ⟨by rw [hmain], by rw [hmain], by rw [hmain], ?_⟩
  intro call2 hagree
  have h2 : ∀ k, k < 5 → isThrottle (call2 k) = true := fun k hk => by
    rw [hagree k hk]
    exact h k hk
  rw [runAll_throttle call2 jitter h2, hmain]

/-- Claim C3, witness: an oracle answering 429 on every attempt. -/
theorem spec_c3_witness :
    (evaluateSingleModel callAllThrottle zeroJitter).score = 0
    ∧ (evaluateSingleModel callAllThrottle zeroJitter).reason = rateLimitReason
    ∧ (evaluateSingleModel callAllThrottle zeroJitter).calls = 5 := by
  have h := spec_c3_exhausted callAllThrottle zeroJitter (fun k _ => rfl)
  exact ⟨h.1, h.2.1, h.2.2.1⟩

/-- Claim C4: a non-throttling failure on the first attempt resolves the
task immediately to the sentinel (score 0, reason "Evaluation error"),
after exactly one remote call and with no backoff sleep; the sentinel is
returned as an ordinary value (nothing is raised, so the batch is not
aborted). -/
theorem spec_c4_other_error (call : ℕ → CallOutcome) (jitter : ℕ → ℚ) (m : String)
    (hc : call 0 = CallOutcome.err m) (hm : isRateLimitMsg m = false) :
    evaluateSingleModel call jitter = ⟨0, evalErrorReason, 1, []⟩ := by
  simp [evaluateSingleModel, runList, hc, hm]

/-- Claim C4, witness: a connection-reset failure. -/
theorem spec_c4_witness :
    evaluateSingleModel callBoom zeroJitter = ⟨0, evalErrorReason, 1, []⟩ :=
  spec_c4_other_error callBoom zeroJitter ("connection reset") rfl (by decide)

/-- Claim C5: parsing the example response yields `(8.5, "Directly
extends prior work.")` — the `SCORE:` label's number is parsed as a
float and the `REASON:` capture runs to the end of the text, trimmed;
both labels are matched case-insensitively (second conjunct). -/
theorem spec_c5_parse_example :
    parseResponse exC5 = (8.5, "Directly extends prior work.")
    ∧ parseResponse exC5low = (8.5, "Directly extends prior work.") := by
  have h8 : digitsToNat ['8'] 0 = 8 := by decide
  have h5 : digitsToNat ['5'] 0 = 5 := by decide
  have d : (digitsToNat ['8'] 0 : ℚ) + fracVal ['5'] = 8.5 := by
    norm_num [fracVal, h8, h5]
  constructor
  · have h : parseResponse exC5 =
        ((digitsToNat ['8'] 0 : ℚ) + fracVal ['5'], "Directly extends prior work.") := rfl
    rw [h, d]
  · have h : parseResponse exC5low =
        ((digitsToNat ['8'] 0 : ℚ) + fracVal ['5'], "Directly extends prior work.") := rfl
    rw [h, d]

/-- Claim C6 (amended): when strategies 1 and 2 fail, the score is the
value of the first match of the standalone-number pattern — a single
digit 0 to 9, or the exact token 10, optionally with a fractional part —
so multi-digit tokens such as 007 are skipped even though their value is
in range (see the counterexample); the example text yields 7; and every
score this fallback produces, the default 0.0 included, lies in
[0, 10]. -/
theorem spec_c6_fallback_range :
    parseScore exC6.data = 7
    ∧ ∀ cs : List Char, searchScoreLabel cs = none → searchAltLabel cs = none →
        0 ≤ parseScore cs ∧ parseScore cs ≤ 10 := by
  refine ⟨by decide, ?_⟩
  intro cs h1 h2
  have hps : parseScore cs =
      match searchNumToken none cs with
      | some q => if 0 ≤ q ∧ q ≤ 10 then q else 0
      | none => 0 := by
    unfold parseScore
    rw [h1, h2]
  rw [hps]
  cases h3 : searchNumToken none cs with
  | none => norm_num
  | some q => by_cases h4 : 0 ≤ q ∧ q ≤ 10 <;> norm_num [h4]

/-- Claim C6, witness: a label-free, number-free text stays in range. -/
theorem spec_c6_witness :
    0 ≤ parseScore exC7.data ∧ parseScore exC7.data ≤ 10 :=
  spec_c6_fallback_range.2 exC7.data (by decide) (by decide)

/-- Claim C6, counterexample to the claim as stated: in `"007 and 5"`
the first standalone integer token whose value lies in [0, 10] is `007`
(value 7), but the fallback skips it — the pattern accepts only a single
digit or the token `10` — and returns 5. -/
theorem spec_c6_cex :
    searchScoreLabel exC6z.data = none ∧ searchAltLabel exC6z.data = none
    ∧ parseScore exC6z.data = 5 ∧ ¬ parseScore exC6z.data = 7 := by
  decide

/-- Claim C7 (amended): with no `REASON:` match the reason is the second
sentence truncated to 100 characters when the sentence split yields more
than one piece, and otherwise the first 100 characters of the raw text —
this fallback always assigns, so the initial value `"No reason
provided"` is never returned (see the counterexample), and parse is a
total function (it never raises). -/
theorem spec_c7_reason_fallback (content : String)
    (h : searchReason content.data = none) :
    (parseResponse content).2 =
      String.mk (if 1 < (splitSent content.data).length
        then ((splitSent content.data).getD 1 []).take 100
        else content.data.take 100) := by
  show String.mk (parseReason content.data) = _
  unfold parseReason
  rw [h]

/-- Claim C7, witness: a three-sentence label-free text falls back to
its second sentence. -/
theorem spec_c7_witness :
    (parseResponse exC7).2 =
      String.mk (if 1 < (splitSent exC7.data).length
        then ((splitSent exC7.data).getD 1 []).take 100
        else exC7.data.take 100) :=
  spec_c7_reason_fallback exC7 (by decide)

/-- Claim C7, counterexample to the claim as stated: on the empty
response — where nothing at all is extractable — parse yields the empty
reason, not the literal `"No reason provided"`: the first-100-characters
fallback applies to the empty text as well. -/
theorem spec_c7_cex :
    parseResponse ("") = (0, "") ∧ ¬ (parseResponse ("")).2 = noReasonStr := by
  decide

/-- Claim C8: the labeled strategies do not clamp — `"SCORE: 15"` parses
to the out-of-range score 15, taken verbatim from the number after the
label. -/
theorem spec_c8_unclamped :
    (parseResponse exC8).1 = 15 ∧ ¬ (parseResponse exC8).1 ≤ 10 := by
  decide

/-- Claim C10: with both label strategies failing and the first in-range
number a decimal (`9.7`), the fallback returns only the integer part 9 —
the captured group excludes the fractional digits the pattern matched. -/
theorem spec_c10_int_part :
    searchScoreLabel exC10.data = none ∧ searchAltLabel exC10.data = none
    ∧ (parseResponse exC10).1 = 9 ∧ ¬ (parseResponse exC10).1 = 97 / 10 := by
  refine ⟨by decide, by decide, by decide, ?_⟩
  have h : (parseResponse exC10).1 = 9 := by decide
  rw [h]
  norm_num

/-- Claim C1: the sequence returned by `evaluate_papers` is a
permutation of exactly the augmented retained papers (those whose
evaluation score is at least the threshold — so no item scoring below
the threshold appears); every returned item carries the
`relevance_score` and `relevance_reason` fields, with an attached score
at least the threshold; and the sequence is pairwise non-increasing in
the attached score.  The quantification over the input list covers every
completion order of the worker pool. -/
theorem spec_c1_filter_sort (papers : List Dict) (ev : Dict → EvalResult) (thr : ℚ) :
    ((evaluatePapers papers ev thr).1).Perm
        ((papers.filter (fun p => decide (thr ≤ (ev p).score))).map (augment ev))
    ∧ (∀ q ∈ (evaluatePapers papers ev thr).1,
        ∃ p ∈ papers, thr ≤ (ev p).score ∧ q = augment ev p ∧
          dictGet q scoreKey = some (Val.num (ev p).score) ∧
          dictGet q reasonKey = some (Val.str (ev p).reason) ∧ thr ≤ relScore q)
    ∧ List.Pairwise (fun a b => relScore b ≤ relScore a) (evaluatePapers papers ev thr).1 := by
  have hperm : ((evaluatePapers papers ev thr).1).Perm
      ((papers.filter (fun p => decide (thr ≤ (ev p).score))).map (augment ev)) :=
    List.perm_insertionSort byScore _
  refine ⟨hperm, ?_, ?_⟩
  · intro q hq
    have hq2 := hperm.subset hq
    rcases List.mem_map.mp hq2 with ⟨p, hpf, hqp⟩
    rcases List.mem_filter.mp hpf with ⟨hp, hcond⟩
    have hscore : thr ≤ (ev p).score := of_decide_eq_true hcond
    have hgs : dictGet (augment ev p) scoreKey = some (Val.num (ev p).score) := by
      unfold augment
      rw [dictGet_dictSet_ne _ _ _ _ (by decide : scoreKey ≠ reasonKey)]
      exact dictGet_dictSet_self _ _ _
    have hgr : dictGet (augment ev p) reasonKey = some (Val.str (ev p).reason) :=
      dictGet_dictSet_self _ _ _
    have hrel : relScore (augment ev p) = (ev p).score := by
      unfold relScore
      rw [hgs]
    subst hqp
    exact ⟨p, hp, hscore, rfl, hgs, hgr, by rw [hrel]; exact hscore⟩
  · have hs := List.sorted_insertionSort byScore
      ((papers.filter (fun p => decide (thr ≤ (ev p).score))).map (augment ev))
    exact hs.imp (fun h => h)

/-- Claim C9 (amended): the engine never changes the value of any
pre-existing field — for every key other than `relevance_score` and
`relevance_reason`, the post-call binding equals the original — and a
paper below the threshold is left entirely unchanged; but a retained
paper is augmented in place, i.e. the caller-owned dictionary itself
gains the two evaluation fields rather than a copy (see the
counterexample). -/
theorem spec_c9_fields_inplace (papers : List Dict) (ev : Dict → EvalResult) (thr : ℚ) :
    (evaluatePapers papers ev thr).2 = papers.map (attachResult ev thr)
    ∧ ∀ p ∈ papers,
        (∀ k, ¬ k = scoreKey → ¬ k = reasonKey →
            dictGet (attachResult ev thr p) k = dictGet p k)
        ∧ (¬ thr ≤ (ev p).score → attachResult ev thr p = p)
        ∧ (thr ≤ (ev p).score →
            dictGet (attachResult ev thr p) scoreKey = some (Val.num (ev p).score)
            ∧ dictGet (attachResult ev thr p) reasonKey = some (Val.str (ev p).reason)) := by
  refine ⟨rfl, ?_⟩
  intro p _
  refine ⟨?_, ?_, ?_⟩
  · intro k hks hkr
    unfold attachResult
    by_cases h : thr ≤ (ev p).score
    · rw [if_pos h]
      unfold augment
      rw [dictGet_dictSet_ne _ _ _ _ hkr, dictGet_dictSet_ne _ _ _ _ hks]
    · rw [if_neg h]
  · intro h
    unfold attachResult
    rw [if_neg h]
  · intro h
    unfold attachResult
    rw [if_pos h]
    constructor
    · unfold augment
      rw [dictGet_dictSet_ne _ _ _ _ (by decide : scoreKey ≠ reasonKey)]
      exact dictGet_dictSet_self _ _ _
    · exact dictGet_dictSet_self _ _ _

/-- Claim C9, witness: a preserved title binding and the in-place score
binding on a retained paper. -/
theorem spec_c9_witness :
    dictGet (attachResult evHigh 7 paperT) titleKey = dictGet paperT titleKey
    ∧ dictGet (attachResult evHigh 7 paperT) scoreKey = some (Val.num (evHigh paperT).score) := by
  have h := spec_c9_fields_inplace [paperT] evHigh 7
  have hp : paperT ∈ [paperT] := List.mem_singleton.mpr rfl
  exact ⟨(h.2 paperT hp).1 titleKey (by decide) (by decide),
    ((h.2 paperT hp).2.2 (by norm_num [evHigh])).1⟩

/-- Claim C9, counterexample to the claim as stated: after the call the
caller's own input item is no longer equal to what the caller passed in —
the retained paper was augmented in place, not a copy; the original had
no `relevance_score` binding, the post-call item has one. -/
theorem spec_c9_cex :
    ¬ (evaluatePapers [paperT] evHigh 7).2 = [paperT]
    ∧ (evaluatePapers [paperT] evHigh 7).2 = [augment evHigh paperT]
    ∧ dictGet paperT scoreKey = none
    ∧ dictGet (augment evHigh paperT) scoreKey = some (Val.num 9) := by
  decide
